import Mathlib

/-!
Shallow embedding of the `gateway-datasource-rest` HTTP cache layer.

The model follows `src/HTTPCache.ts` and `src/utils/response-body.util.ts`.
The external collaborators (the HTTP cache-semantics policy evaluator, the
network transport and the key-value store) are represented abstractly:

* the evaluator is a structure of functions over an opaque policy type `π`
  (serialized form `σ`, constructor options `ω`), mirroring the interface
  the orchestrator uses (`storable`, `timeToLive`, `age`,
  `satisfiesWithoutRevalidation`, `revalidationHeaders`, `revalidatedPolicy`,
  `responseHeaders`, `toObject`/`fromObject`, and the internal `_url` /
  `_status` accesses);
* the transport is a function from URL and request options to a response;
* the key-value store read is a function from key to an optional entry, and
  writes are recorded in the returned result and event trace.

JavaScript numbers that matter here (statuses, ages, TTLs in seconds or
milliseconds) are integers in practice and are modelled as `Int`;
JS truthiness of an optional number (`undefined`, `0` are falsy) is
modelled explicitly by `truthyNum`.
-/

namespace GatewayDatasourceRest

/-- A parsed response body: either the structured-data (JSON) parse of the
body text, or the raw body text (`response.json()` vs `response.text()`). -/
inductive ParsedBody where
  | json (raw : String)
  | text (raw : String)
deriving DecidableEq, Repr

/-- A value of the header record of the evaluator: a single string or an array of
strings (duplicate headers). -/
inductive HeaderValue where
  | str (s : String)
  | arr (vs : List String)
deriving DecidableEq, Repr

/-- Fetcher-side headers: an ordered multimap of name/value pairs. -/
abbrev FetcherHeaders := List (String × String)

/-- Evaluator-side headers (`CachePolicy.Headers`): a record whose values are
strings or string arrays. -/
abbrev CPHeaders := List (String × HeaderValue)

/-- A transport response: URL (when known), status, headers, body text.
Both live responses and the synthesized `NodeFetchResponse` objects the
orchestrator builds from a policy are represented this way. -/
structure FetcherResponse where
  url : Option String
  status : Int
  headers : FetcherHeaders
  textBody : String
deriving DecidableEq, Repr

/-- ASCII lowercasing, written over the character list so that it reduces in
the kernel (`String.toLower` itself is not kernel-reducible). -/
def strToLower (s : String) : String :=
  String.mk (s.data.map Char.toLower)

/-- JS `String.prototype.startsWith`, written over character lists. -/
def strStartsWith (s pre : String) : Bool :=
  s.data.take pre.data.length == pre.data

/-- JS `String.prototype.endsWith`, written over character lists. -/
def strEndsWith (s post : String) : Bool :=
  s.data.drop (s.data.length - post.data.length) == post.data

/-- Case-insensitive header lookup; duplicate values are joined with a comma
and a space, as the fetch `Headers.get` does. Returns `none` when absent. -/
def headerGet (hs : FetcherHeaders) (name : String) : Option String :=
  match (hs.filter (fun p => strToLower p.1 = strToLower name)).map Prod.snd with
  | [] => none
  | vs => some (String.intercalate ", " vs)

/-- Case-insensitive header presence test (`Headers.has`). -/
def headerHas (hs : FetcherHeaders) (name : String) : Bool :=
  hs.any (fun p => strToLower p.1 = strToLower name)

/-- Embedding of `parseResponseBody` (src/utils/response-body.util.ts):
parse as JSON iff the status is not 204, the `Content-Length` header is not
the string `0`, and the `Content-Type` header is present, truthy, and starts
with `application/json` or ends with `+json`; otherwise return the raw text. -/
def parseResponseBody (response : FetcherResponse) : ParsedBody :=
  let contentType := headerGet response.headers "Content-Type"
  let contentLength := headerGet response.headers "Content-Length"
  if (response.status != 204) && (contentLength != some "0") &&
      (match contentType with
       | none => false
       | some ct => (ct != "") &&
           (strStartsWith ct "application/json" || strEndsWith ct "+json"))
  then ParsedBody.json response.textBody
  else ParsedBody.text response.textBody

/-- Per-call request options (`RequestOptions`): method (defaulted to GET),
headers, the cache-read bypass flag, and opaque transport-specific fields
(`extra`), which the orchestrator preserves through spreads. -/
structure RequestOptions where
  method : Option String := none
  headers : Option FetcherHeaders := none
  skipCache : Option Bool := none
  extra : String := ""
deriving DecidableEq, Repr

/-- Store-facing cache options (`CacheOptions`): the recognized `ttl` field
plus additional options passed through verbatim to the set call of the store. -/
structure CacheOptions where
  ttl : Option Int := none
  extras : List (String × String) := []
deriving DecidableEq, Repr

/-- The request descriptor handed to the evaluator (`policyRequestFrom`). -/
structure PolicyRequest where
  url : String
  method : String
  headers : FetcherHeaders
deriving DecidableEq, Repr

/-- The response descriptor handed to the evaluator (`policyResponseFrom`). -/
structure PolicyResponse where
  status : Int
  headers : CPHeaders
deriving DecidableEq, Repr

/-- The HTTP cache-semantics policy evaluator, abstracted over an opaque
policy type `π`, its serialized form `σ`, and constructor options `ω`.
`statusOf` and `getUrl` model the `_status` / `_url` internal accesses;
`clearUrl` models the `policy._url = undefined` assignment. -/
structure Evaluator (π σ ω : Type) where
  mkPolicy : PolicyRequest → PolicyResponse → Option ω → π
  fromObject : σ → π
  toObject : π → σ
  getUrl : π → Option String
  clearUrl : π → π
  statusOf : π → Int
  age : π → Int
  satisfiesWithoutRevalidation : π → PolicyRequest → Bool
  responseHeaders : π → CPHeaders
  revalidationHeaders : π → PolicyRequest → CPHeaders
  revalidatedPolicy : π → PolicyRequest → PolicyResponse → π × Bool
  storable : π → Bool
  timeToLive : π → Int

/-- A stored cache entry (`CacheItem`). -/
structure CacheItem (σ : Type) where
  policy : σ
  ttlOverride : Option Int
  body : ParsedBody
deriving DecidableEq, Repr

/-- The content of an initiated key-value store write: the key, the entry,
and the `set` options (the computed `ttl` merged over the caller-supplied
extras). -/
structure CacheWrite (σ : Type) where
  cacheKey : String
  entry : CacheItem σ
  ttl : Int
  extras : List (String × String)
deriving DecidableEq, Repr

/-- An observable effect of one `fetch` call: a store read, a live transport
fetch, or an initiated store write. -/
inductive CacheEvent (σ : Type) where
  | storeGet (key : String)
  | liveFetch (url : String) (opts : RequestOptions)
  | storeSet (w : CacheWrite σ)
deriving DecidableEq, Repr

/-- The value returned to the caller (`ResponseWithCacheWritePromise`):
`responseFromCache` is `none` when the property is left undefined, and
`cacheWrite` is the initiated write when a `cacheWritePromise` is attached. -/
structure FetchResult (σ : Type) where
  response : FetcherResponse
  parsedBody : ParsedBody
  responseFromCache : Option Bool
  cacheWrite : Option (CacheWrite σ)
deriving DecidableEq, Repr

/-- The `cacheOptions` argument: a static value or a function of the URL,
response and request (resolved once per storage decision). -/
inductive CacheOptionsArg where
  | static (co : CacheOptions)
  | computed (f : String → FetcherResponse → RequestOptions → Option CacheOptions)

/-- The optional `cache` argument of `fetch`. -/
structure FetchCacheArg (ω : Type) where
  cacheKey : Option String := none
  cacheOptions : Option CacheOptionsArg := none
  httpCacheSemanticsCachePolicyOptions : Option ω := none

/-- JS truthiness of an optional number: `undefined` and `0` are falsy. -/
def truthyNum : Option Int → Bool
  | none => false
  | some v => v != 0

/-- Embedding of `policyRequestFrom`. -/
def policyRequestFrom (url : String) (request : RequestOptions) : PolicyRequest :=
  { url := url
    method := request.method.getD "GET"
    headers := request.headers.getD [] }

/-- The distinct lowercased header names, in order of first occurrence, as
the node-fetch Headers raw() grouping produces them. -/
def rawHeaderNames (hs : FetcherHeaders) : List String :=
  hs.foldl (fun acc p =>
    if acc.contains (strToLower p.1) then acc else acc ++ [strToLower p.1]) []

/-- Embedding of `nodeFetchHeadersToCachePolicyHeaders`: group the multimap
by name and collapse singleton value lists to scalars. -/
def nodeFetchHeadersToCachePolicyHeaders (hs : FetcherHeaders) : CPHeaders :=
  (rawHeaderNames hs).map (fun n =>
    (n, match (hs.filter (fun p => strToLower p.1 = n)).map Prod.snd with
        | [v] => HeaderValue.str v
        | vs => HeaderValue.arr vs))

/-- Embedding of `policyResponseFrom` (the node-fetch headers branch). -/
def policyResponseFrom (response : FetcherResponse) : PolicyResponse :=
  { status := response.status
    headers := nodeFetchHeadersToCachePolicyHeaders response.headers }

/-- Embedding of `cachePolicyHeadersToNodeFetchHeadersInit`: flatten array
values into repeated pairs and keep truthy (nonempty) string values. -/
def cachePolicyHeadersToNodeFetchHeadersInit (headers : CPHeaders) : FetcherHeaders :=
  headers.foldl (fun acc p =>
    match p.2 with
    | HeaderValue.arr vs => acc ++ vs.map (fun v => (p.1, v))
    | HeaderValue.str v => if v != "" then acc ++ [(p.1, v)] else acc) []

/-- Record-style assignment `record[k] = v`: replace an existing binding for
`k`, else append. -/
def recordSet (r : FetcherHeaders) (k v : String) : FetcherHeaders :=
  if r.any (fun p => p.1 = k) then r.map (fun p => if p.1 = k then (k, v) else p)
  else r ++ [(k, v)]

/-- Embedding of `cachePolicyHeadersToFetcherHeadersInit`: join array values
with a comma and a space, keep truthy string values, building a record. -/
def cachePolicyHeadersToFetcherHeadersInit (headers : CPHeaders) : FetcherHeaders :=
  headers.foldl (fun acc p =>
    match p.2 with
    | HeaderValue.arr vs => recordSet acc p.1 (String.intercalate ", " vs)
    | HeaderValue.str v => if v != "" then recordSet acc p.1 v else acc) []

/-- Embedding of `canBeRevalidated`: the response carries an `ETag` or a
`Last-Modified` header. -/
def canBeRevalidated (response : FetcherResponse) : Bool :=
  headerHas response.headers "ETag" || headerHas response.headers "Last-Modified"

/-- `Math.round(ms / 1000)` for an integer number of milliseconds. -/
def jsRoundMsToSec (ms : Int) : Int :=
  (ms + 500).fdiv 1000

/-- Resolution of the `cacheOptions` argument: a function is invoked with
`(url, response, request)`, a static value is used as-is. -/
def resolveCacheOptions (cacheOptionsArg : Option CacheOptionsArg) (url : String)
    (response : FetcherResponse) (request : RequestOptions) : Option CacheOptions :=
  match cacheOptionsArg with
  | some (CacheOptionsArg.computed f) => f url response request
  | some (CacheOptionsArg.static co) => some co
  | none => none

/-- Embedding of `storeResponseAndReturnClone`: decide storage eligibility,
compute the TTL (doubling it for revalidatable responses), and either return
the response/body as-is or additionally initiate the store write.  Returns
the result together with the store events it causes. -/
def storeResponseAndReturnClone {π σ ω : Type} (E : Evaluator π σ ω) (url : String)
    (response : FetcherResponse) (parsedBody : ParsedBody) (request : RequestOptions)
    (policy : π) (cacheKey : String) (cacheOptionsArg : Option CacheOptionsArg) :
    FetchResult σ × List (CacheEvent σ) :=
  let cacheOptions := resolveCacheOptions cacheOptionsArg url response request
  let ttlOverride := cacheOptions.bind CacheOptions.ttl
  if ¬(truthyNum ttlOverride ∧ 200 ≤ E.statusOf policy ∧ E.statusOf policy ≤ 299) ∧
      ¬(request.method = some "GET" ∧ E.storable policy) then
    ({ response := response, parsedBody := parsedBody
       responseFromCache := none, cacheWrite := none }, [])
  else
    let ttl : Int :=
      match ttlOverride with
      | none => jsRoundMsToSec (E.timeToLive policy)
      | some t => t
    if ttl ≤ 0 then
      ({ response := response, parsedBody := parsedBody
         responseFromCache := none, cacheWrite := none }, [])
    else
      let ttl := if canBeRevalidated response then ttl * 2 else ttl
      let entry : CacheItem σ :=
        { policy := E.toObject policy, ttlOverride := ttlOverride, body := parsedBody }
      let extras := (cacheOptions.map CacheOptions.extras).getD []
      let w : CacheWrite σ := { cacheKey := cacheKey, entry := entry, ttl := ttl, extras := extras }
      ({ response := response, parsedBody := parsedBody
         responseFromCache := none, cacheWrite := some w },
       [CacheEvent.storeSet w])

/-- The method-defaulting mutation line 77 (defaulting the method to GET). -/
def withDefaultMethod (requestOpts : RequestOptions) : RequestOptions :=
  { requestOpts with method := some (requestOpts.method.getD "GET") }

/-- The store lookup of lines 93–96: read the entry unless the caller set
`skipCache` to `true`. -/
def hitEntry {σ : Type} (store_get : String → Option (CacheItem σ))
    (requestOpts : RequestOptions) (cacheKey : String) : Option (CacheItem σ) :=
  if requestOpts.skipCache ≠ some true then store_get cacheKey else none

/-- The deserialized stored policy with its URL removed
(`CachePolicy.fromObject` followed by `policy._url = undefined`). -/
def storedPolicyOf {π σ ω : Type} (E : Evaluator π σ ω) (entry : CacheItem σ) : π :=
  E.clearUrl (E.fromObject entry.policy)

/-- The freshness test of lines 130–136: a truthy `ttlOverride` makes the
entry fresh iff its age is below the override; otherwise the header-based test of the evaluator decides. -/
@[reducible] def entryIsFresh {π σ ω : Type} (E : Evaluator π σ ω) (entry : CacheItem σ)
    (url : String) (requestOpts : RequestOptions) : Prop :=
  (truthyNum entry.ttlOverride ∧
     E.age (storedPolicyOf E entry) < entry.ttlOverride.getD 0) ∨
  (¬ truthyNum entry.ttlOverride ∧
     E.satisfiesWithoutRevalidation (storedPolicyOf E entry)
       (policyRequestFrom url requestOpts))


/-- The revalidation request of lines 168–174: the original options with the
headers replaced by the revalidation headers of the evaluator, converted to the
fetcher format. -/
def revalidationRequestOf {π σ ω : Type} (E : Evaluator π σ ω) (entry : CacheItem σ)
    (url : String) (requestOpts : RequestOptions) : RequestOptions :=
  { requestOpts with
    headers := some (cachePolicyHeadersToFetcherHeadersInit
      (E.revalidationHeaders (storedPolicyOf E entry)
        (policyRequestFrom url requestOpts))) }

/-- Embedding of `HTTPCache.fetch`.  `httpFetch` is the transport,
`parseBody` the injected body parser, `store_get` the (already prefixed)
key-value store read.  Returns the `ResponseWithCacheWritePromise` value
together with the ordered list of store/transport events the call performs. -/
def fetch {π σ ω : Type} (E : Evaluator π σ ω)
    (httpFetch : String → RequestOptions → FetcherResponse)
    (parseBody : FetcherResponse → ParsedBody)
    (store_get : String → Option (CacheItem σ))
    (url : String) (requestOpts : RequestOptions)
    (cache : Option (FetchCacheArg ω)) : FetchResult σ × List (CacheEvent σ) :=
  let urlString := url
  let requestOpts := withDefaultMethod requestOpts
  let cacheKey := (cache.bind FetchCacheArg.cacheKey).getD urlString
  if requestOpts.method = some "HEAD" then
    ({ response := httpFetch urlString requestOpts, parsedBody := ParsedBody.text ""
       responseFromCache := some false, cacheWrite := none },
     [CacheEvent.liveFetch urlString requestOpts])
  else
    let entry := hitEntry store_get requestOpts cacheKey
    let getEvents : List (CacheEvent σ) :=
      if requestOpts.skipCache ≠ some true then [CacheEvent.storeGet cacheKey] else []
    match entry with
    | none =>
      let response := httpFetch urlString requestOpts
      let policy := E.mkPolicy (policyRequestFrom urlString requestOpts)
        (policyResponseFrom response)
        (cache.bind FetchCacheArg.httpCacheSemanticsCachePolicyOptions)
      let parsedBody := parseBody response
      let pr := storeResponseAndReturnClone E urlString response parsedBody requestOpts
        policy cacheKey (cache.bind FetchCacheArg.cacheOptions)
      (pr.1, getEvents ++ [CacheEvent.liveFetch urlString requestOpts] ++ pr.2)
    | some entry =>
      let urlFromPolicy := E.getUrl (E.fromObject entry.policy)
      let policy := storedPolicyOf E entry
      if entryIsFresh E entry urlString requestOpts then
        let headers := E.responseHeaders policy
        ({ response :=
             { url := urlFromPolicy, status := E.statusOf policy
               headers := cachePolicyHeadersToNodeFetchHeadersInit headers
               textBody := "" }
           parsedBody := entry.body, responseFromCache := some true, cacheWrite := none },
         getEvents)
      else
        let revalidationRequest := revalidationRequestOf E entry urlString requestOpts
        let revalidationResponse := httpFetch urlString revalidationRequest
        let pm := E.revalidatedPolicy policy
          (policyRequestFrom urlString revalidationRequest)
          (policyResponseFrom revalidationResponse)
        let revalidatedPolicy := pm.1
        let modified := pm.2
        let parsedBody := if modified then parseBody revalidationResponse else entry.body
        let pr := storeResponseAndReturnClone E urlString
          { url := E.getUrl revalidatedPolicy, status := E.statusOf revalidatedPolicy
            headers := cachePolicyHeadersToNodeFetchHeadersInit
              (E.responseHeaders revalidatedPolicy)
            textBody := "" }
          parsedBody requestOpts revalidatedPolicy cacheKey
          (cache.bind FetchCacheArg.cacheOptions)
        (pr.1, getEvents ++ [CacheEvent.liveFetch urlString revalidationRequest] ++ pr.2)


/-! ## Basic lemmas about the embedding -/

theorem withDefaultMethod_method (r : RequestOptions) :
    (withDefaultMethod r).method = some (r.method.getD "GET") := rfl

theorem withDefaultMethod_skipCache (r : RequestOptions) :
    (withDefaultMethod r).skipCache = r.skipCache := rfl

theorem withDefaultMethod_headers (r : RequestOptions) :
    (withDefaultMethod r).headers = r.headers := rfl

theorem hitEntry_withDefaultMethod {σ : Type} (sg : String → Option (CacheItem σ))
    (r : RequestOptions) (k : String) :
    hitEntry sg (withDefaultMethod r) k = hitEntry sg r k := rfl

theorem hitEntry_some_skipCache {σ : Type} {sg : String → Option (CacheItem σ)}
    {r : RequestOptions} {k : String} {e : CacheItem σ}
    (h : hitEntry sg r k = some e) : r.skipCache ≠ some true := by
  intro hc
  unfold hitEntry at h
  rw [if_neg (by simp [hc])] at h
  exact Option.noConfusion h

/-- Behaviour of `fetch` on the HEAD guard (lines 85–91): one live fetch,
empty parsed body, `responseFromCache = false`, no store events. -/
theorem fetch_head {π σ ω : Type} (E : Evaluator π σ ω)
    (hf : String → RequestOptions → FetcherResponse)
    (pb : FetcherResponse → ParsedBody)
    (sg : String → Option (CacheItem σ))
    (url : String) (requestOpts : RequestOptions) (cache : Option (FetchCacheArg ω))
    (hm : requestOpts.method.getD "GET" = "HEAD") :
    fetch E hf pb sg url requestOpts cache =
      ({ response := hf url (withDefaultMethod requestOpts), parsedBody := ParsedBody.text ""
         responseFromCache := some false, cacheWrite := none },
       [CacheEvent.liveFetch url (withDefaultMethod requestOpts)]) := by
  simp only [fetch, withDefaultMethod_method, hm, if_pos]

/-- Behaviour of `fetch` on the fresh-hit path (lines 130–151): synthesized
response from the stored policy, stored body, `responseFromCache = true`,
and the store read as the only event. -/
theorem fetch_hit_fresh {π σ ω : Type} (E : Evaluator π σ ω)
    (hf : String → RequestOptions → FetcherResponse)
    (pb : FetcherResponse → ParsedBody)
    (sg : String → Option (CacheItem σ))
    (url : String) (requestOpts : RequestOptions) (cache : Option (FetchCacheArg ω))
    (entry : CacheItem σ)
    (hm : requestOpts.method.getD "GET" ≠ "HEAD")
    (hget : hitEntry sg requestOpts ((cache.bind FetchCacheArg.cacheKey).getD url) = some entry)
    (hfresh : entryIsFresh E entry url (withDefaultMethod requestOpts)) :
    fetch E hf pb sg url requestOpts cache =
      ({ response :=
           { url := E.getUrl (E.fromObject entry.policy)
             status := E.statusOf (storedPolicyOf E entry)
             headers := cachePolicyHeadersToNodeFetchHeadersInit
               (E.responseHeaders (storedPolicyOf E entry))
             textBody := "" }
         parsedBody := entry.body, responseFromCache := some true, cacheWrite := none },
       [CacheEvent.storeGet ((cache.bind FetchCacheArg.cacheKey).getD url)]) := by
  have hm2 : ¬ (some (requestOpts.method.getD "GET") = some "HEAD") := by simpa using hm
  have hsk := hitEntry_some_skipCache hget
  simp only [fetch, withDefaultMethod_method, withDefaultMethod_skipCache,
    hitEntry_withDefaultMethod, hget]
  rw [if_neg hm2, if_pos hfresh, if_pos hsk]

/-- Behaviour of `fetch` on the stale-hit path (lines 152–204): the store
read, the revalidation fetch, and then the storage decision on the
revalidated policy and the (possibly reused) body. -/
theorem fetch_hit_stale {π σ ω : Type} (E : Evaluator π σ ω)
    (hf : String → RequestOptions → FetcherResponse)
    (pb : FetcherResponse → ParsedBody)
    (sg : String → Option (CacheItem σ))
    (url : String) (requestOpts : RequestOptions) (cache : Option (FetchCacheArg ω))
    (entry : CacheItem σ)
    (hm : requestOpts.method.getD "GET" ≠ "HEAD")
    (hget : hitEntry sg requestOpts ((cache.bind FetchCacheArg.cacheKey).getD url) = some entry)
    (hstale : ¬ entryIsFresh E entry url (withDefaultMethod requestOpts)) :
    fetch E hf pb sg url requestOpts cache =
      (let cacheKey := (cache.bind FetchCacheArg.cacheKey).getD url
       let revReq := revalidationRequestOf E entry url (withDefaultMethod requestOpts)
       let rresp := hf url revReq
       let pm := E.revalidatedPolicy (storedPolicyOf E entry)
         (policyRequestFrom url revReq) (policyResponseFrom rresp)
       let body2 := if pm.2 then pb rresp else entry.body
       let pr := storeResponseAndReturnClone E url
         { url := E.getUrl pm.1, status := E.statusOf pm.1
           headers := cachePolicyHeadersToNodeFetchHeadersInit (E.responseHeaders pm.1)
           textBody := "" }
         body2 (withDefaultMethod requestOpts) pm.1 cacheKey
         (cache.bind FetchCacheArg.cacheOptions)
       (pr.1, CacheEvent.storeGet cacheKey :: CacheEvent.liveFetch url revReq :: pr.2)) := by
  have hm2 : ¬ (some (requestOpts.method.getD "GET") = some "HEAD") := by simpa using hm
  have hsk := hitEntry_some_skipCache hget
  simp only [fetch, withDefaultMethod_method, withDefaultMethod_skipCache,
    hitEntry_withDefaultMethod, hget]
  rw [if_neg hm2, if_neg hstale, if_pos hsk]
  simp only [List.append_assoc, List.singleton_append, List.cons_append, List.nil_append]

/-- Behaviour of `fetch` on the miss path (lines 97–119): live fetch, fresh
policy, body parse, then the storage decision. -/
theorem fetch_miss {π σ ω : Type} (E : Evaluator π σ ω)
    (hf : String → RequestOptions → FetcherResponse)
    (pb : FetcherResponse → ParsedBody)
    (sg : String → Option (CacheItem σ))
    (url : String) (requestOpts : RequestOptions) (cache : Option (FetchCacheArg ω))
    (hm : requestOpts.method.getD "GET" ≠ "HEAD")
    (hget : hitEntry sg requestOpts ((cache.bind FetchCacheArg.cacheKey).getD url) = none) :
    fetch E hf pb sg url requestOpts cache =
      (let cacheKey := (cache.bind FetchCacheArg.cacheKey).getD url
       let req2 := withDefaultMethod requestOpts
       let response := hf url req2
       let policy := E.mkPolicy (policyRequestFrom url req2) (policyResponseFrom response)
         (cache.bind FetchCacheArg.httpCacheSemanticsCachePolicyOptions)
       let pr := storeResponseAndReturnClone E url response (pb response) req2 policy
         cacheKey (cache.bind FetchCacheArg.cacheOptions)
       (pr.1,
        (if requestOpts.skipCache ≠ some true then [CacheEvent.storeGet cacheKey] else [])
          ++ [CacheEvent.liveFetch url req2] ++ pr.2)) := by
  have hm2 : ¬ (some (requestOpts.method.getD "GET") = some "HEAD") := by simpa using hm
  simp only [fetch, withDefaultMethod_method, withDefaultMethod_skipCache,
    hitEntry_withDefaultMethod, hget]
  rw [if_neg hm2]

/-! ## Concrete instances used by witnesses and counterexamples -/

/-- A concrete evaluator over `Int` policies for concrete evaluations:
status, age and time-to-live are constants, as are the storability /
freshness / modified verdicts and the revalidation header set. -/
def exEval (st ageV ttlMs : Int) (storableB satisfiesB modifiedB : Bool)
    (revHeaders : CPHeaders) : Evaluator Int Int Unit :=
  { mkPolicy := fun _ _ _ => 0
    fromObject := fun s => s
    toObject := fun p => p
    getUrl := fun _ => none
    clearUrl := fun p => p
    statusOf := fun _ => st
    age := fun _ => ageV
    satisfiesWithoutRevalidation := fun _ _ => satisfiesB
    responseHeaders := fun _ => []
    revalidationHeaders := fun _ _ => revHeaders
    revalidatedPolicy := fun p _ _ => (p, modifiedB)
    storable := fun _ => storableB
    timeToLive := fun _ => ttlMs }

/-- A concrete transport that always answers with a cacheable 200. -/
def exHf : String → RequestOptions → FetcherResponse :=
  fun _ _ =>
    { url := none, status := 200
      headers := [("Cache-Control", "max-age=60")], textBody := "hello" }

/-- A concrete stored entry without a TTL override. -/
def exEntry : CacheItem Int :=
  { policy := 0, ttlOverride := none, body := ParsedBody.text "cached" }

/-! ## Claims -/

/-- C7: for every fetch whose request method is HEAD, no store get and no
store set is ever invoked, exactly one live fetch is performed, and the
result has `responseFromCache = false`. -/
theorem head_request_bypasses_store {π σ ω : Type} (E : Evaluator π σ ω)
    (hf : String → RequestOptions → FetcherResponse)
    (pb : FetcherResponse → ParsedBody)
    (sg : String → Option (CacheItem σ))
    (url : String) (requestOpts : RequestOptions) (cache : Option (FetchCacheArg ω))
    (hm : requestOpts.method = some "HEAD") :
    (fetch E hf pb sg url requestOpts cache).2 =
        [CacheEvent.liveFetch url (withDefaultMethod requestOpts)] ∧
    (fetch E hf pb sg url requestOpts cache).1.responseFromCache = some false ∧
    (fetch E hf pb sg url requestOpts cache).1.cacheWrite = none := by
  rw [fetch_head E hf pb sg url requestOpts cache (by rw [hm]; rfl)]
  exact ⟨rfl, rfl, rfl⟩

/-- Witness for C7 at a concrete input: a HEAD request against a store that
does hold an entry still performs exactly one live fetch and no store event. -/
theorem head_request_bypasses_store_witness :
    ({ method := some "HEAD" } : RequestOptions).method = some "HEAD" ∧
    ((fetch (exEval 200 0 60000 true false false []) exHf parseResponseBody
          (fun _ => some exEntry) "https://api.test/a"
          { method := some "HEAD" } none).2 =
        [CacheEvent.liveFetch "https://api.test/a"
          (withDefaultMethod { method := some "HEAD" })] ∧
      (fetch (exEval 200 0 60000 true false false []) exHf parseResponseBody
          (fun _ => some exEntry) "https://api.test/a"
          { method := some "HEAD" } none).1.responseFromCache = some false ∧
      (fetch (exEval 200 0 60000 true false false []) exHf parseResponseBody
          (fun _ => some exEntry) "https://api.test/a"
          { method := some "HEAD" } none).1.cacheWrite = none) :=
  ⟨rfl, head_request_bypasses_store (exEval 200 0 60000 true false false []) exHf
    parseResponseBody (fun _ => some exEntry) "https://api.test/a"
    { method := some "HEAD" } none rfl⟩

/-- C10: for every fetch whose request method is HEAD, the returned
`parsedBody` is the empty string, for every transport and every injected body
parser — the live response body is never parsed. -/
theorem head_request_empty_parsedBody {π σ ω : Type} (E : Evaluator π σ ω)
    (hf : String → RequestOptions → FetcherResponse)
    (pb : FetcherResponse → ParsedBody)
    (sg : String → Option (CacheItem σ))
    (url : String) (requestOpts : RequestOptions) (cache : Option (FetchCacheArg ω))
    (hm : requestOpts.method = some "HEAD") :
    (fetch E hf pb sg url requestOpts cache).1.parsedBody = ParsedBody.text "" := by
  rw [fetch_head E hf pb sg url requestOpts cache (by rw [hm]; rfl)]

/-- Witness for C10 at a concrete input: the transport supplies a non-empty
JSON body, yet the parsed body of the HEAD result is the empty string. -/
theorem head_request_empty_parsedBody_witness :
    ({ method := some "HEAD" } : RequestOptions).method = some "HEAD" ∧
    (fetch (exEval 200 0 60000 true false false [])
        (fun _ _ =>
          { url := none, status := 200
            headers := [("Content-Type", "application/json")], textBody := "data" })
        parseResponseBody (fun _ => some exEntry) "https://api.test/a"
        { method := some "HEAD" } none).1.parsedBody = ParsedBody.text "" :=
  ⟨rfl, head_request_empty_parsedBody (exEval 200 0 60000 true false false [])
    (fun _ _ =>
      { url := none, status := 200
        headers := [("Content-Type", "application/json")], textBody := "data" })
    parseResponseBody (fun _ => some exEntry) "https://api.test/a"
    { method := some "HEAD" } none rfl⟩

/-- A common real-world content type: `application/json` with a charset
parameter.  It is not exactly `application/json` and does not end in
`+json`. -/
def ctWithParameter : String := "application/json; charset=utf-8"

/-- C9 counterexample: a 200 response whose `Content-Type` merely starts
with `application/json` (it carries a charset parameter, so it is neither
exactly `application/json` nor ends with `+json`) is parsed as JSON by the
code, contradicting the claimed "exactly `application/json`" condition. -/
theorem parseResponseBody_json_with_parameter :
    parseResponseBody
        { url := none, status := 200
          headers := [("Content-Type", ctWithParameter)], textBody := "payload" } =
      ParsedBody.json "payload" ∧
    ¬(ctWithParameter = "application/json" ∨ strEndsWith ctWithParameter "+json" = true) := by
  constructor
  · rfl
  · decide

/-- Unfolding lemma for `parseResponseBody` with the lets inlined. -/
theorem parseResponseBody_def (r : FetcherResponse) :
    parseResponseBody r =
      if ((r.status != 204) && ((headerGet r.headers "Content-Length") != some "0") &&
          (match headerGet r.headers "Content-Type" with
           | none => false
           | some ct => (ct != "") &&
               (strStartsWith ct "application/json" || strEndsWith ct "+json"))) = true
      then ParsedBody.json r.textBody else ParsedBody.text r.textBody := rfl

/-- C9 (amended): the parser returns the raw text when the status is 204 or
the `Content-Length` header is the string `0`, regardless of content type;
otherwise it parses as JSON iff the `Content-Type` header is present,
non-empty and STARTS WITH `application/json` or ends with `+json`; in every
other case it returns the raw text. -/
theorem parseResponseBody_branching (response : FetcherResponse) :
    ((response.status = 204 ∨ headerGet response.headers "Content-Length" = some "0") →
      parseResponseBody response = ParsedBody.text response.textBody) ∧
    (response.status ≠ 204 →
      headerGet response.headers "Content-Length" ≠ some "0" →
      (parseResponseBody response = ParsedBody.json response.textBody ↔
        ∃ ct, headerGet response.headers "Content-Type" = some ct ∧ ct ≠ "" ∧
          (strStartsWith ct "application/json" = true ∨ strEndsWith ct "+json" = true))) ∧
    (parseResponseBody response = ParsedBody.json response.textBody ∨
      parseResponseBody response = ParsedBody.text response.textBody) := by
  refine ⟨?_, ?_, ?_⟩
  · intro h
    rw [parseResponseBody_def, if_neg]
    intro hc
    simp only [Bool.and_eq_true, bne_iff_ne, ne_eq] at hc
    rcases h with h | h
    · exact hc.1.1 h
    · exact hc.1.2 h
  · intro h204 hcl
    rw [parseResponseBody_def]
    rcases hct : headerGet response.headers "Content-Type" with _ | ct
    · rw [if_neg (by simp)]
      refine iff_of_false (by simp) ?_
      rintro ⟨ct2, hcteq, -⟩
      exact Option.noConfusion hcteq
    · by_cases hb : ((ct != "") &&
          (strStartsWith ct "application/json" || strEndsWith ct "+json")) = true
      · simp only [Bool.and_eq_true, bne_iff_ne, ne_eq, Bool.or_eq_true] at hb
        rw [if_pos (by
          simp only [Bool.and_eq_true, bne_iff_ne, ne_eq, Bool.or_eq_true]
          exact ⟨⟨h204, hcl⟩, hb⟩)]
        exact iff_of_true rfl ⟨ct, rfl, hb.1, hb.2⟩
      · rw [if_neg (by
          simp only [Bool.and_eq_true, bne_iff_ne, ne_eq, Bool.or_eq_true]
          rintro ⟨-, h2⟩
          exact hb (by
            simp only [Bool.and_eq_true, bne_iff_ne, ne_eq, Bool.or_eq_true]
            exact h2))]
        refine iff_of_false (by simp) ?_
        rintro ⟨ct2, hcteq, hne, hcond⟩
        rcases Option.some.inj hcteq
        exact hb (by
          simp only [Bool.and_eq_true, bne_iff_ne, ne_eq, Bool.or_eq_true]
          exact ⟨hne, hcond⟩)
  · rw [parseResponseBody_def]
    split
    · exact Or.inl rfl
    · exact Or.inr rfl

/-- Witness for the amended theorem of C9: a 200 response with content type
`text/vnd+json` is parsed as JSON, and conversely the theorem recovers the
content-type condition from that fact. -/
theorem parseResponseBody_branching_witness :
    ((200 : Int) ≠ 204 ∧
      headerGet [("Content-Type", "text/vnd+json")] "Content-Length" ≠ some "0") ∧
    (∃ ct, headerGet [("Content-Type", "text/vnd+json")] "Content-Type" = some ct ∧
      ct ≠ "" ∧
      (strStartsWith ct "application/json" = true ∨ strEndsWith ct "+json" = true)) :=
  ⟨⟨by decide, by decide⟩,
    ((parseResponseBody_branching
        { url := none, status := 200
          headers := [("Content-Type", "text/vnd+json")], textBody := "d" }).2.1
      (by decide) (by decide)).mp (by decide)⟩

/-- The TTL of step 4 of the storage decision, before the revalidation
doubling: the override when present, else the evaluator time-to-live
rounded to seconds. -/
def computedTtl {π σ ω : Type} (E : Evaluator π σ ω) (policy : π) (tov : Option Int) : Int :=
  match tov with
  | none => jsRoundMsToSec (E.timeToLive policy)
  | some t => t

/-- A concrete 404 response. -/
def exResp404 : FetcherResponse :=
  { url := none, status := 404, headers := [], textBody := "nf" }

/-- C1 counterexample: with a `ttlOverride` of 5 and a 404 status, a GET
whose response the evaluator reports storable IS written to the cache (the
standard-semantics disjunct in the code does not require the override to be
absent), contradicting the claim that a write happens only when (a) an
override is set and the status is 2xx or (b) no override is set, the method
is GET and the response is storable. -/
theorem storeDecision_writes_despite_override_non2xx :
    (storeResponseAndReturnClone (exEval 404 0 0 true false false []) "https://api.test/a"
        exResp404 (ParsedBody.text "nf") { method := some "GET" } (0 : Int) "k"
        (some (CacheOptionsArg.static { ttl := some 5 }))).1.cacheWrite.isSome = true ∧
    ¬((truthyNum ((resolveCacheOptions (some (CacheOptionsArg.static { ttl := some 5 }))
          "https://api.test/a" exResp404 { method := some "GET" }).bind CacheOptions.ttl) = true ∧
        200 ≤ (exEval 404 0 0 true false false []).statusOf 0 ∧
        (exEval 404 0 0 true false false []).statusOf 0 ≤ 299) ∨
      ((resolveCacheOptions (some (CacheOptionsArg.static { ttl := some 5 }))
          "https://api.test/a" exResp404 { method := some "GET" }).bind CacheOptions.ttl = none ∧
        ({ method := some "GET" } : RequestOptions).method = some "GET" ∧
        (exEval 404 0 0 true false false []).storable 0 = true)) :=
  ⟨rfl, by decide⟩

/-- C1 (amended): the storage decision always returns the response and the
parsed body as-is, and a cache write is initiated iff the eligibility
disjunction of the code holds — (a) a truthy `ttlOverride` with a status in [200,299]
(method and storability ignored), OR (b) the request method is GET and the
evaluator reports the response storable (regardless of any override) — and
additionally the computed TTL is positive. -/
theorem storeDecision_eligibility_exact {π σ ω : Type} (E : Evaluator π σ ω)
    (url : String) (response : FetcherResponse) (parsedBody : ParsedBody)
    (request : RequestOptions) (policy : π) (cacheKey : String)
    (cacheOptionsArg : Option CacheOptionsArg) :
    ((storeResponseAndReturnClone E url response parsedBody request policy cacheKey
        cacheOptionsArg).1.response = response ∧
      (storeResponseAndReturnClone E url response parsedBody request policy cacheKey
        cacheOptionsArg).1.parsedBody = parsedBody) ∧
    ((storeResponseAndReturnClone E url response parsedBody request policy cacheKey
        cacheOptionsArg).1.cacheWrite.isSome = true ↔
      (((truthyNum ((resolveCacheOptions cacheOptionsArg url response request).bind
            CacheOptions.ttl) = true ∧
          200 ≤ E.statusOf policy ∧ E.statusOf policy ≤ 299) ∨
        (request.method = some "GET" ∧ E.storable policy = true)) ∧
       0 < computedTtl E policy
         ((resolveCacheOptions cacheOptionsArg url response request).bind
           CacheOptions.ttl))) := by
  simp only [storeResponseAndReturnClone, computedTtl]
  split
  next hg =>
    refine ⟨⟨rfl, rfl⟩, iff_of_false (by simp) ?_⟩
    rintro ⟨helig, -⟩
    rcases helig with h | h
    · exact hg.1 h
    · exact hg.2 h
  next hg =>
    split
    next hle =>
      refine ⟨⟨rfl, rfl⟩, iff_of_false (by simp) ?_⟩
      rintro ⟨-, hpos⟩
      exact absurd hpos (not_lt.mpr hle)
    next hle =>
      refine ⟨⟨rfl, rfl⟩, iff_of_true rfl ⟨?_, not_le.mp hle⟩⟩
      rcases not_and_or.mp hg with h | h
      · exact Or.inl (not_not.mp h)
      · exact Or.inr (not_not.mp h)

/-- A concrete 200 response carrying an ETag. -/
def exRespETag : FetcherResponse :=
  { url := none, status := 200, headers := [("ETag", "v1")], textBody := "body" }

/-- C6: whenever the storage decision initiates a cache write, the TTL
passed to the key-value store set is exactly twice the computed TTL when
the response carries an ETag or Last-Modified header, and the computed TTL
unchanged when it carries neither. -/
theorem cacheWrite_ttl_doubling {π σ ω : Type} (E : Evaluator π σ ω)
    (url : String) (response : FetcherResponse) (parsedBody : ParsedBody)
    (request : RequestOptions) (policy : π) (cacheKey : String)
    (cacheOptionsArg : Option CacheOptionsArg) (w : CacheWrite σ)
    (hw : (storeResponseAndReturnClone E url response parsedBody request policy cacheKey
        cacheOptionsArg).1.cacheWrite = some w) :
    w.ttl = (if canBeRevalidated response = true
      then computedTtl E policy
        ((resolveCacheOptions cacheOptionsArg url response request).bind CacheOptions.ttl) * 2
      else computedTtl E policy
        ((resolveCacheOptions cacheOptionsArg url response request).bind CacheOptions.ttl)) := by
  simp only [storeResponseAndReturnClone, computedTtl] at hw ⊢
  split at hw
  · exact absurd hw (by simp)
  · split at hw
    · exact absurd hw (by simp)
    · cases Option.some.inj hw
      rfl

/-- Witness for C6 at a concrete input: a POST stored under an override TTL
of 30 whose response carries an ETag is written with TTL 60. -/
theorem cacheWrite_ttl_doubling_witness :
    ((storeResponseAndReturnClone (exEval 200 0 45000 true false false [])
        "https://api.test/a" exRespETag (ParsedBody.text "body")
        { method := some "POST" } (0 : Int) "k"
        (some (CacheOptionsArg.static { ttl := some 30 }))).1.cacheWrite =
      some { cacheKey := "k"
             entry := { policy := 0, ttlOverride := some 30, body := ParsedBody.text "body" }
             ttl := 60, extras := [] }) ∧
    ({ cacheKey := "k"
       entry := { policy := 0, ttlOverride := some 30, body := ParsedBody.text "body" }
       ttl := 60, extras := [] } : CacheWrite Int).ttl =
      (if canBeRevalidated exRespETag = true
        then computedTtl (exEval 200 0 45000 true false false []) 0
          ((resolveCacheOptions (some (CacheOptionsArg.static { ttl := some 30 }))
            "https://api.test/a" exRespETag { method := some "POST" }).bind CacheOptions.ttl) * 2
        else computedTtl (exEval 200 0 45000 true false false []) 0
          ((resolveCacheOptions (some (CacheOptionsArg.static { ttl := some 30 }))
            "https://api.test/a" exRespETag { method := some "POST" }).bind CacheOptions.ttl)) :=
  ⟨by decide, cacheWrite_ttl_doubling (exEval 200 0 45000 true false false [])
    "https://api.test/a" exRespETag (ParsedBody.text "body") { method := some "POST" }
    (0 : Int) "k" (some (CacheOptionsArg.static { ttl := some 30 })) _ (by decide)⟩

/-- The storage decision never sets `responseFromCache`: the property stays
undefined on every path through it. -/
theorem storeResponseAndReturnClone_responseFromCache {π σ ω : Type} (E : Evaluator π σ ω)
    (url : String) (response : FetcherResponse) (parsedBody : ParsedBody)
    (request : RequestOptions) (policy : π) (cacheKey : String)
    (cacheOptionsArg : Option CacheOptionsArg) :
    (storeResponseAndReturnClone E url response parsedBody request policy cacheKey
      cacheOptionsArg).1.responseFromCache = none := by
  simp only [storeResponseAndReturnClone]
  split
  · rfl
  · split <;> rfl

/-- Supporting invariant for C2: an entry the storage decision writes never
carries a zero or negative `ttlOverride` — the override is absent or
positive.  (A truthy override passes eligibility only with the override as
the TTL, and non-positive TTLs are never written.) -/
theorem storedEntry_ttlOverride_none_or_pos {π σ ω : Type} (E : Evaluator π σ ω)
    (url : String) (response : FetcherResponse) (parsedBody : ParsedBody)
    (request : RequestOptions) (policy : π) (cacheKey : String)
    (cacheOptionsArg : Option CacheOptionsArg) (w : CacheWrite σ)
    (hw : (storeResponseAndReturnClone E url response parsedBody request policy cacheKey
        cacheOptionsArg).1.cacheWrite = some w) :
    w.entry.ttlOverride = none ∨ ∃ t, w.entry.ttlOverride = some t ∧ 0 < t := by
  simp only [storeResponseAndReturnClone] at hw
  split at hw
  · exact absurd hw (by simp)
  · split at hw
    next hle => exact absurd hw (by simp)
    next hle =>
      cases Option.some.inj hw
      rcases htov : (resolveCacheOptions cacheOptionsArg url response request).bind
          CacheOptions.ttl with _ | t
      · exact Or.inl rfl
      · refine Or.inr ⟨t, rfl, ?_⟩
        rw [htov] at hle
        exact not_le.mp (by simpa using hle)

/-- C2: on a cache hit whose stored entry carries a (positive, as every
stored override is) `ttlOverride`, the entry is served fresh iff its age is
below the override, and the header-based evaluator function
`satisfiesWithoutRevalidation` is never consulted: the whole fetch result is
unchanged under an arbitrary replacement of that evaluator function. -/
theorem ttlOverride_freshness_precedence {π σ ω : Type} (E : Evaluator π σ ω)
    (hf : String → RequestOptions → FetcherResponse)
    (pb : FetcherResponse → ParsedBody)
    (sg : String → Option (CacheItem σ))
    (url : String) (requestOpts : RequestOptions) (cache : Option (FetchCacheArg ω))
    (entry : CacheItem σ) (t : Int) (f : π → PolicyRequest → Bool)
    (hm : requestOpts.method.getD "GET" ≠ "HEAD")
    (hget : hitEntry sg requestOpts ((cache.bind FetchCacheArg.cacheKey).getD url) = some entry)
    (ho : entry.ttlOverride = some t) (ht : 0 < t) :
    ((fetch E hf pb sg url requestOpts cache).1.responseFromCache = some true ↔
      E.age (storedPolicyOf E entry) < t) ∧
    fetch E hf pb sg url requestOpts cache =
      fetch { E with satisfiesWithoutRevalidation := f } hf pb sg url requestOpts cache := by
  have hne : t ≠ 0 := by omega
  have hfr : entryIsFresh E entry url (withDefaultMethod requestOpts) ↔
      E.age (storedPolicyOf E entry) < t := by
    simp [entryIsFresh, ho, truthyNum, hne]
  have hfr2 : entryIsFresh { E with satisfiesWithoutRevalidation := f } entry url
      (withDefaultMethod requestOpts) ↔ E.age (storedPolicyOf E entry) < t := by
    simp [entryIsFresh, ho, truthyNum, hne, storedPolicyOf]
  by_cases hage : E.age (storedPolicyOf E entry) < t
  · rw [fetch_hit_fresh E hf pb sg url requestOpts cache entry hm hget (hfr.mpr hage),
      fetch_hit_fresh { E with satisfiesWithoutRevalidation := f } hf pb sg url requestOpts
        cache entry hm hget (hfr2.mpr hage)]
    exact ⟨iff_of_true rfl hage, rfl⟩
  · rw [fetch_hit_stale E hf pb sg url requestOpts cache entry hm hget
        (fun hcon => hage (hfr.mp hcon)),
      fetch_hit_stale { E with satisfiesWithoutRevalidation := f } hf pb sg url requestOpts
        cache entry hm hget (fun hcon => hage (hfr2.mp hcon))]
    refine ⟨iff_of_false ?_ hage, rfl⟩
    simp only [storeResponseAndReturnClone_responseFromCache]
    exact fun h => Option.noConfusion h

/-- A concrete stored entry with a TTL override of 5 seconds. -/
def exEntryOverride : CacheItem Int :=
  { policy := 0, ttlOverride := some 5, body := ParsedBody.text "cached" }

/-- Witness for C2 at a concrete input: age 3 against an override of 5 is
served from the cache, and replacing the header-based freshness verdict by
an always-true function changes nothing. -/
theorem ttlOverride_freshness_precedence_witness :
    (({} : RequestOptions).method.getD "GET" ≠ "HEAD" ∧
      hitEntry (fun _ => some exEntryOverride) ({} : RequestOptions)
        ((Option.bind (none : Option (FetchCacheArg Unit)) FetchCacheArg.cacheKey).getD
          "https://api.test/a") = some exEntryOverride ∧
      exEntryOverride.ttlOverride = some 5 ∧ (0 : Int) < 5) ∧
    (((fetch (exEval 200 3 0 true false false []) exHf parseResponseBody
          (fun _ => some exEntryOverride) "https://api.test/a" {} none).1.responseFromCache =
        some true ↔
      (exEval 200 3 0 true false false []).age
        (storedPolicyOf (exEval 200 3 0 true false false []) exEntryOverride) < 5) ∧
    fetch (exEval 200 3 0 true false false []) exHf parseResponseBody
        (fun _ => some exEntryOverride) "https://api.test/a" {} none =
      fetch { exEval 200 3 0 true false false [] with
          satisfiesWithoutRevalidation := fun _ _ => true }
        exHf parseResponseBody (fun _ => some exEntryOverride) "https://api.test/a" {} none) :=
  ⟨⟨by decide, by decide, rfl, by decide⟩,
    ttlOverride_freshness_precedence (exEval 200 3 0 true false false []) exHf
      parseResponseBody (fun _ => some exEntryOverride) "https://api.test/a" {} none
      exEntryOverride 5 (fun _ _ => true) (by decide) (by decide) rfl (by decide)⟩

/-- The storage decision returns the parsed body unchanged on every path. -/
theorem storeResponseAndReturnClone_parsedBody {π σ ω : Type} (E : Evaluator π σ ω)
    (url : String) (response : FetcherResponse) (parsedBody : ParsedBody)
    (request : RequestOptions) (policy : π) (cacheKey : String)
    (cacheOptionsArg : Option CacheOptionsArg) :
    (storeResponseAndReturnClone E url response parsedBody request policy cacheKey
      cacheOptionsArg).1.parsedBody = parsedBody := by
  simp only [storeResponseAndReturnClone]
  split
  · rfl
  · split <;> rfl

/-- An entry written by the storage decision stores exactly the parsed body
it was given. -/
theorem storeResponseAndReturnClone_write_body {π σ ω : Type} (E : Evaluator π σ ω)
    (url : String) (response : FetcherResponse) (parsedBody : ParsedBody)
    (request : RequestOptions) (policy : π) (cacheKey : String)
    (cacheOptionsArg : Option CacheOptionsArg) (w : CacheWrite σ)
    (hw : (storeResponseAndReturnClone E url response parsedBody request policy cacheKey
        cacheOptionsArg).1.cacheWrite = some w) :
    w.entry.body = parsedBody := by
  simp only [storeResponseAndReturnClone] at hw
  split at hw
  · exact absurd hw (by simp)
  · split at hw
    · exact absurd hw (by simp)
    · cases Option.some.inj hw
      rfl

/-- A 304 Not Modified transport. -/
def exHf304 : String → RequestOptions → FetcherResponse :=
  fun _ _ => { url := none, status := 304, headers := [], textBody := "" }

/-- An evaluator that reports entries stale (header-wise) and revalidations
unmodified, with a revalidation header set carrying a validator. -/
def exEvalUnmod : Evaluator Int Int Unit :=
  exEval 200 0 60000 true false false [("if-none-match", HeaderValue.str "v1")]

/-- C4 counterexample: a revalidation that the origin answers 304 serves the
stored body unchanged — yet `responseFromCache` is absent (`none`), not
`true`: the flag does NOT reflect that the response was served unchanged on
the revalidation path. -/
theorem responseFromCache_missing_on_revalidation :
    (fetch exEvalUnmod exHf304 parseResponseBody (fun _ => some exEntry)
        "https://api.test/a" {} none).1.responseFromCache = none ∧
    (fetch exEvalUnmod exHf304 parseResponseBody (fun _ => some exEntry)
        "https://api.test/a" {} none).1.parsedBody = exEntry.body ∧
    (fetch exEvalUnmod exHf304 parseResponseBody (fun _ => some exEntry)
        "https://api.test/a" {} none).2.get? 1 =
      some (CacheEvent.liveFetch "https://api.test/a"
        { method := some "GET", headers := some [("if-none-match", "v1")]
          skipCache := none, extra := "" }) :=
  ⟨rfl, rfl, rfl⟩

/-- C4 (amended): `responseFromCache` is `false` on the HEAD path, `true` on
the fresh-hit path, and ABSENT (undefined) both on the miss path and on the
revalidation path — on the latter regardless of whether the origin reported
the content modified. -/
theorem responseFromCache_exact {π σ ω : Type} (E : Evaluator π σ ω)
    (hf : String → RequestOptions → FetcherResponse)
    (pb : FetcherResponse → ParsedBody)
    (sg : String → Option (CacheItem σ))
    (url : String) (requestOpts : RequestOptions) (cache : Option (FetchCacheArg ω)) :
    (requestOpts.method.getD "GET" = "HEAD" →
      (fetch E hf pb sg url requestOpts cache).1.responseFromCache = some false) ∧
    (requestOpts.method.getD "GET" ≠ "HEAD" →
      (fetch E hf pb sg url requestOpts cache).1.responseFromCache =
        match hitEntry sg requestOpts ((cache.bind FetchCacheArg.cacheKey).getD url) with
        | none => none
        | some entry =>
          if entryIsFresh E entry url (withDefaultMethod requestOpts) then some true
          else none) := by
  constructor
  · intro hm
    rw [fetch_head E hf pb sg url requestOpts cache hm]
  · intro hm
    rcases hget : hitEntry sg requestOpts ((cache.bind FetchCacheArg.cacheKey).getD url)
      with _ | entry
    · rw [fetch_miss E hf pb sg url requestOpts cache hm hget]
      simp [storeResponseAndReturnClone_responseFromCache]
    · by_cases hfresh : entryIsFresh E entry url (withDefaultMethod requestOpts)
      · rw [fetch_hit_fresh E hf pb sg url requestOpts cache entry hm hget hfresh]
        simp [hfresh]
      · rw [fetch_hit_stale E hf pb sg url requestOpts cache entry hm hget hfresh]
        simp [hfresh, storeResponseAndReturnClone_responseFromCache]

/-- Witness for the amended theorem of C4 at a concrete input: a stale hit that
is revalidated ends with an absent `responseFromCache`. -/
theorem responseFromCache_exact_witness :
    ({} : RequestOptions).method.getD "GET" ≠ "HEAD" ∧
    (fetch exEvalUnmod exHf304 parseResponseBody (fun _ => some exEntry)
        "https://api.test/b" {} none).1.responseFromCache =
      (match hitEntry (fun _ => some exEntry) ({} : RequestOptions)
          ((Option.bind (none : Option (FetchCacheArg Unit)) FetchCacheArg.cacheKey).getD
            "https://api.test/b") with
        | none => none
        | some entry =>
          if entryIsFresh exEvalUnmod entry "https://api.test/b"
              (withDefaultMethod ({} : RequestOptions)) then some true
          else none) :=
  ⟨by decide,
    (responseFromCache_exact exEvalUnmod exHf304 parseResponseBody (fun _ => some exEntry)
      "https://api.test/b" {} none).2 (by decide)⟩

/-- On any hit, when every revalidation the evaluator performs reports the
content unmodified, the served body is the stored body, and any written
entry stores that same body. -/
theorem fetch_unmodified_preserves_body {π σ ω : Type} (E : Evaluator π σ ω)
    (hf : String → RequestOptions → FetcherResponse)
    (pb : FetcherResponse → ParsedBody)
    (sg : String → Option (CacheItem σ))
    (url : String) (requestOpts : RequestOptions) (cache : Option (FetchCacheArg ω))
    (e : CacheItem σ)
    (hm : requestOpts.method.getD "GET" ≠ "HEAD")
    (hget : hitEntry sg requestOpts ((cache.bind FetchCacheArg.cacheKey).getD url) = some e)
    (hmod : ∀ p q r, (E.revalidatedPolicy p q r).2 = false) :
    (fetch E hf pb sg url requestOpts cache).1.parsedBody = e.body ∧
    ∀ w, (fetch E hf pb sg url requestOpts cache).1.cacheWrite = some w →
      w.entry.body = e.body := by
  by_cases hfresh : entryIsFresh E e url (withDefaultMethod requestOpts)
  · rw [fetch_hit_fresh E hf pb sg url requestOpts cache e hm hget hfresh]
    exact ⟨rfl, fun w hw => absurd hw (by simp)⟩
  · rw [fetch_hit_stale E hf pb sg url requestOpts cache e hm hget hfresh]
    constructor
    · simp [hmod, storeResponseAndReturnClone_parsedBody]
    · intro w hw
      simp only [hmod, Bool.false_eq_true, if_false] at hw
      exact storeResponseAndReturnClone_write_body _ _ _ _ _ _ _ _ w hw

/-- The entry the store holds after one more `fetch` against `e`: the
written entry when a write was initiated, else `e` unchanged (this layer
never deletes). -/
def nextEntry {π σ ω : Type} (E : Evaluator π σ ω)
    (hf : String → RequestOptions → FetcherResponse)
    (pb : FetcherResponse → ParsedBody)
    (url : String) (requestOpts : RequestOptions) (cache : Option (FetchCacheArg ω))
    (e : CacheItem σ) : CacheItem σ :=
  match (fetch E hf pb (fun _ => some e) url requestOpts cache).1.cacheWrite with
  | some w => w.entry
  | none => e

/-- The stored entry after `n` repetitions of the same fetch. -/
def entryAfter {π σ ω : Type} (E : Evaluator π σ ω)
    (hf : String → RequestOptions → FetcherResponse)
    (pb : FetcherResponse → ParsedBody)
    (url : String) (requestOpts : RequestOptions) (cache : Option (FetchCacheArg ω))
    (e0 : CacheItem σ) : Nat → CacheItem σ
  | 0 => e0
  | n + 1 => nextEntry E hf pb url requestOpts cache
      (entryAfter E hf pb url requestOpts cache e0 n)

/-- C3: when the evaluator reports revalidations unmodified, the body served
for a stale entry is the previously stored body, and this is stable under
any number of repetitions of the fetch (each round re-reading whatever entry
the previous round wrote). -/
theorem revalidation_unmodified_preserves_body {π σ ω : Type} (E : Evaluator π σ ω)
    (hf : String → RequestOptions → FetcherResponse)
    (pb : FetcherResponse → ParsedBody)
    (url : String) (requestOpts : RequestOptions) (cache : Option (FetchCacheArg ω))
    (e0 : CacheItem σ)
    (hm : requestOpts.method.getD "GET" ≠ "HEAD")
    (hsk : requestOpts.skipCache ≠ some true)
    (hmod : ∀ p q r, (E.revalidatedPolicy p q r).2 = false) :
    (¬ entryIsFresh E e0 url (withDefaultMethod requestOpts) →
      (fetch E hf pb (fun _ => some e0) url requestOpts cache).1.parsedBody = e0.body) ∧
    ∀ n, (fetch E hf pb (fun _ => some (entryAfter E hf pb url requestOpts cache e0 n))
        url requestOpts cache).1.parsedBody = e0.body := by
  have hget : ∀ e : CacheItem σ, hitEntry (fun _ => some e) requestOpts
      ((cache.bind FetchCacheArg.cacheKey).getD url) = some e := by
    intro e
    unfold hitEntry
    rw [if_pos hsk]
  have hbody : ∀ n, (entryAfter E hf pb url requestOpts cache e0 n).body = e0.body := by
    intro n
    induction n with
    | zero => rfl
    | succ n ih =>
      show (nextEntry E hf pb url requestOpts cache
        (entryAfter E hf pb url requestOpts cache e0 n)).body = e0.body
      unfold nextEntry
      rcases hw : (fetch E hf pb
          (fun _ => some (entryAfter E hf pb url requestOpts cache e0 n))
          url requestOpts cache).1.cacheWrite with _ | w
      · exact ih
      · rw [(fetch_unmodified_preserves_body E hf pb _ url requestOpts cache _ hm
          (hget _) hmod).2 w hw]
        exact ih
  constructor
  · intro _
    exact (fetch_unmodified_preserves_body E hf pb _ url requestOpts cache e0 hm
      (hget e0) hmod).1
  · intro n
    rw [(fetch_unmodified_preserves_body E hf pb _ url requestOpts cache _ hm
      (hget _) hmod).1]
    exact hbody n

/-- Witness for C3 at a concrete input: two repetitions of an unmodified
revalidation still serve the originally cached body. -/
theorem revalidation_unmodified_preserves_body_witness :
    (({} : RequestOptions).method.getD "GET" ≠ "HEAD" ∧
      ({} : RequestOptions).skipCache ≠ some true) ∧
    (fetch exEvalUnmod exHf304 parseResponseBody
        (fun _ => some (entryAfter exEvalUnmod exHf304 parseResponseBody
          "https://api.test/a" {} none exEntry 2))
        "https://api.test/a" {} none).1.parsedBody = exEntry.body :=
  ⟨⟨by decide, by decide⟩,
    (revalidation_unmodified_preserves_body exEvalUnmod exHf304 parseResponseBody
      "https://api.test/a" {} none exEntry (by decide) (by decide)
      (fun _ _ _ => rfl)).2 2⟩

/-- C5 counterexample: with an evaluator whose revalidation-header set is
just the conditional validator (as the evaluator contract of the spec describes),
the revalidation fetch is issued with ONLY that validator: the original
`x-custom` header of the caller is not preserved, because the orchestrator
replaces the request headers with the evaluator output instead of merging
into them. -/
theorem revalidation_replaces_request_headers :
    (fetch exEvalUnmod exHf304 parseResponseBody (fun _ => some exEntry)
        "https://api.test/c" { headers := some [("x-custom", "1")] } none).2 =
      [CacheEvent.storeGet "https://api.test/c",
       CacheEvent.liveFetch "https://api.test/c"
         { method := some "GET", headers := some [("if-none-match", "v1")]
           skipCache := none, extra := "" },
       CacheEvent.storeSet
         { cacheKey := "https://api.test/c", entry := exEntry, ttl := 60, extras := [] }] ∧
    ("x-custom", "1") ∉ ([("if-none-match", "v1")] : FetcherHeaders) :=
  ⟨rfl, by decide⟩

/-- C5 (amended): on a stale hit the revalidation fetch is issued with the
original request options whose `headers` field is REPLACED by the
fetcher-format conversion of the revalidation headers of the evaluator — headers
the evaluator computes from the request descriptor that carries the
original caller headers; all other request options are preserved.  Whether the
headers of the caller reappear in the issued request is up to the
evaluator output, not to the orchestrator. -/
theorem revalidation_request_headers_exact {π σ ω : Type} (E : Evaluator π σ ω)
    (hf : String → RequestOptions → FetcherResponse)
    (pb : FetcherResponse → ParsedBody)
    (sg : String → Option (CacheItem σ))
    (url : String) (requestOpts : RequestOptions) (cache : Option (FetchCacheArg ω))
    (entry : CacheItem σ)
    (hm : requestOpts.method.getD "GET" ≠ "HEAD")
    (hget : hitEntry sg requestOpts ((cache.bind FetchCacheArg.cacheKey).getD url) = some entry)
    (hstale : ¬ entryIsFresh E entry url (withDefaultMethod requestOpts)) :
    (fetch E hf pb sg url requestOpts cache).2.get? 1 =
      some (CacheEvent.liveFetch url
        (revalidationRequestOf E entry url (withDefaultMethod requestOpts))) ∧
    revalidationRequestOf E entry url (withDefaultMethod requestOpts) =
      { withDefaultMethod requestOpts with
        headers := some (cachePolicyHeadersToFetcherHeadersInit
          (E.revalidationHeaders (storedPolicyOf E entry)
            (policyRequestFrom url (withDefaultMethod requestOpts)))) } := by
  constructor
  · rw [fetch_hit_stale E hf pb sg url requestOpts cache entry hm hget hstale]
    rfl
  · rfl

/-- Witness for the amended theorem of C5 at a concrete input. -/
theorem revalidation_request_headers_exact_witness :
    (({ headers := some [("x-custom", "1")] } : RequestOptions).method.getD "GET" ≠ "HEAD" ∧
      hitEntry (fun _ => some exEntry) ({ headers := some [("x-custom", "1")] } : RequestOptions)
        ((Option.bind (none : Option (FetchCacheArg Unit)) FetchCacheArg.cacheKey).getD
          "https://api.test/d") = some exEntry ∧
      ¬ entryIsFresh exEvalUnmod exEntry "https://api.test/d"
        (withDefaultMethod { headers := some [("x-custom", "1")] })) ∧
    ((fetch exEvalUnmod exHf304 parseResponseBody (fun _ => some exEntry)
        "https://api.test/d" { headers := some [("x-custom", "1")] } none).2.get? 1 =
      some (CacheEvent.liveFetch "https://api.test/d"
        (revalidationRequestOf exEvalUnmod exEntry "https://api.test/d"
          (withDefaultMethod { headers := some [("x-custom", "1")] }))) ∧
    revalidationRequestOf exEvalUnmod exEntry "https://api.test/d"
        (withDefaultMethod { headers := some [("x-custom", "1")] }) =
      { withDefaultMethod ({ headers := some [("x-custom", "1")] } : RequestOptions) with
        headers := some (cachePolicyHeadersToFetcherHeadersInit
          (exEvalUnmod.revalidationHeaders (storedPolicyOf exEvalUnmod exEntry)
            (policyRequestFrom "https://api.test/d"
              (withDefaultMethod { headers := some [("x-custom", "1")] })))) }) :=
  ⟨⟨by decide, by decide, by decide⟩,
    revalidation_request_headers_exact exEvalUnmod exHf304 parseResponseBody
      (fun _ => some exEntry) "https://api.test/d" { headers := some [("x-custom", "1")] }
      none exEntry (by decide) (by decide) (by decide)⟩

/-- The event list of the storage decision never contains a store read. -/
theorem storeResponseAndReturnClone_events_no_get {π σ ω : Type} (E : Evaluator π σ ω)
    (url : String) (response : FetcherResponse) (parsedBody : ParsedBody)
    (request : RequestOptions) (policy : π) (cacheKey : String)
    (cacheOptionsArg : Option CacheOptionsArg) :
    (storeResponseAndReturnClone E url response parsedBody request policy cacheKey
        cacheOptionsArg).2.all
      (fun ev => match ev with
        | CacheEvent.storeGet _ => false
        | _ => true) = true := by
  simp only [storeResponseAndReturnClone]
  split
  · rfl
  · split
    · rfl
    · rfl

/-- C8: for a non-HEAD fetch with `skipCache` set, the store get is never
invoked, yet the result is exactly the storage-decision result on the live
response — so a store set may still be initiated (skip-cache means
force-revalidate, not never-cache). -/
theorem skipCache_skips_read_not_write {π σ ω : Type} (E : Evaluator π σ ω)
    (hf : String → RequestOptions → FetcherResponse)
    (pb : FetcherResponse → ParsedBody)
    (sg : String → Option (CacheItem σ))
    (url : String) (requestOpts : RequestOptions) (cache : Option (FetchCacheArg ω))
    (hm : requestOpts.method.getD "GET" ≠ "HEAD")
    (hsk : requestOpts.skipCache = some true) :
    (fetch E hf pb sg url requestOpts cache).2.all
      (fun ev => match ev with
        | CacheEvent.storeGet _ => false
        | _ => true) = true ∧
    fetch E hf pb sg url requestOpts cache =
      (let cacheKey := (cache.bind FetchCacheArg.cacheKey).getD url
       let req2 := withDefaultMethod requestOpts
       let response := hf url req2
       let policy := E.mkPolicy (policyRequestFrom url req2) (policyResponseFrom response)
         (cache.bind FetchCacheArg.httpCacheSemanticsCachePolicyOptions)
       let pr := storeResponseAndReturnClone E url response (pb response) req2 policy
         cacheKey (cache.bind FetchCacheArg.cacheOptions)
       (pr.1, CacheEvent.liveFetch url req2 :: pr.2)) := by
  have hget : hitEntry sg requestOpts ((cache.bind FetchCacheArg.cacheKey).getD url) = none := by
    unfold hitEntry
    rw [if_neg (by simp [hsk])]
  rw [fetch_miss E hf pb sg url requestOpts cache hm hget]
  constructor
  · simp [hsk, storeResponseAndReturnClone_events_no_get]
  · simp [hsk]

/-- Witness for C8 at a concrete input: with `skipCache`, a cacheable GET
performs no store read, yet its storage decision initiates a write. -/
theorem skipCache_skips_read_not_write_witness :
    (({ skipCache := some true } : RequestOptions).method.getD "GET" ≠ "HEAD" ∧
      ({ skipCache := some true } : RequestOptions).skipCache = some true) ∧
    ((fetch exEvalUnmod exHf parseResponseBody (fun _ => some exEntry)
        "https://api.test/e" { skipCache := some true } none).2.all
      (fun ev => match ev with
        | CacheEvent.storeGet _ => false
        | _ => true) = true ∧
    fetch exEvalUnmod exHf parseResponseBody (fun _ => some exEntry)
        "https://api.test/e" { skipCache := some true } none =
      (let cacheKey := (Option.bind (none : Option (FetchCacheArg Unit))
         FetchCacheArg.cacheKey).getD "https://api.test/e"
       let req2 := withDefaultMethod { skipCache := some true }
       let response := exHf "https://api.test/e" req2
       let policy := exEvalUnmod.mkPolicy
         (policyRequestFrom "https://api.test/e" req2) (policyResponseFrom response)
         (Option.bind (none : Option (FetchCacheArg Unit))
           FetchCacheArg.httpCacheSemanticsCachePolicyOptions)
       let pr := storeResponseAndReturnClone exEvalUnmod "https://api.test/e" response
         (parseResponseBody response) req2 policy cacheKey
         (Option.bind (none : Option (FetchCacheArg Unit)) FetchCacheArg.cacheOptions)
       (pr.1, CacheEvent.liveFetch "https://api.test/e" req2 :: pr.2))) ∧
    (fetch exEvalUnmod exHf parseResponseBody (fun _ => some exEntry)
        "https://api.test/e" { skipCache := some true } none).1.cacheWrite.isSome = true :=
  ⟨⟨by decide, rfl⟩,
    skipCache_skips_read_not_write exEvalUnmod exHf parseResponseBody
      (fun _ => some exEntry) "https://api.test/e" { skipCache := some true } none
      (by decide) rfl,
    by decide⟩

end GatewayDatasourceRest
